import Mathlib

/-!
Shallow embedding of the Humongolus document-mapping and change-tracking
engine (`humongolus/__init__.py` and `humongolus/field.py`), together with
theorems settling the frozen claims about it.

Conventions of the embedding:
* Python runtime values that the engine manipulates are modelled by `Val`
  (`None`, booleans, integers, strings); Python truthiness and Python `==`
  (which identifies `0 == False`, `1 == True`) are modelled explicitly.
* A leaf `Field` instance is a record `FState` holding `_value` (current),
  `_dirty` (baseline) and `_error`; the per-type `clean` hooks of
  `field.py` are interpreted from a first-order `FieldKind`.
* Exceptions are modelled with `Except`; a caller that swallows an
  exception in the source is modelled by matching on the `Except` result.
-/

namespace Humongolus

/-- Python runtime values handled by the engine in the claims under study. -/
inductive Val where
  | none : Val
  | bool (b : Bool) : Val
  | int (n : Int) : Val
  | str (s : String) : Val
  deriving DecidableEq, Repr

/-- Python truthiness (`if val:`) for the modelled values. -/
def Val.truthy : Val → Bool
  | .none => false
  | .bool b => b
  | .int n => decide (n ≠ 0)
  | .str s => decide (s ≠ "")

/-- Numeric view used by Python `==`: booleans compare equal to 0/1. -/
def Val.pyNum : Val → Option Int
  | .bool b => some (if b then 1 else 0)
  | .int n => some n
  | _ => Option.none

/-- Python `==` on the modelled values (`0 == False`, `1 == True`). -/
def Val.pyEq (a b : Val) : Bool :=
  match a.pyNum, b.pyNum with
  | some x, some y => decide (x = y)
  | _, _ => decide (a = b)

/-- Python `in` over a tuple or list (membership via `==`). -/
def Val.pyIn (v : Val) (xs : List Val) : Bool :=
  xs.any (fun x => v.pyEq x)

/-- `EMPTY = ("", " ", None, "None")` — `__init__.py` line 24. -/
def EMPTY : List Val := [Val.str "", Val.str " ", Val.none, Val.str "None"]

/-- Python `unicode(val)` / `str(val)` coercion for the modelled values. -/
def Val.toPyStr : Val → String
  | .none => "None"
  | .bool b => if b then "True" else "False"
  | .int n => toString n
  | .str s => s

/-- Python `int(val)`: `Option.none` models the coercion raising. -/
def Val.toPyInt : Val → Option Int
  | .none => Option.none
  | .bool b => some (if b then 1 else 0)
  | .int n => some n
  | .str s => s.toInt?

/-- The Python class name of a value (`obj.__class__`), used by
`List.append` for its element-type membership test. -/
def Val.pyCls : Val → String
  | .none => "NoneType"
  | .bool _ => "bool"
  | .int _ => "int"
  | .str _ => "str"

/-- Structured view of the exceptions raised by the field `clean` hooks:
`FieldException("Required Field")`, the catch-all
`FieldException("... is not a valid ...")`, and `MaxException` /
`MinException` carrying the violated limit (`field.py` lines 8-9, 43-44,
57-58). -/
inductive FieldError where
  | required : FieldError
  | invalid (display : String) : FieldError
  | max (limit : Int) : FieldError
  | min (limit : Int) : FieldError
  deriving DecidableEq, Repr

/-- The field types exercised by the claims: the base `Field` (identity
`clean`, `__init__.py` line 251), `Char` and `Integer` (`field.py`).
`Char` bounds are length bounds; both are checked with `!= None`, so they
are modelled as `Option Int`. -/
inductive FieldKind where
  | base : FieldKind
  | char (min max : Option Int) : FieldKind
  | integer (min max : Option Int) : FieldKind
  deriving DecidableEq, Repr

/-- Static configuration of one field: its kind and its `_required` flag.
A custom `_validate` hook is not modelled (all claims use fields without
one, the default). -/
structure FieldCfg where
  kind : FieldKind
  required : Bool
  deriving DecidableEq, Repr

/-- Mutable state of a `Field` instance: `_value` (current value),
`_dirty` (baseline value) and `_error` (`__init__.py` lines 216-220). -/
structure FState where
  value : Val
  dirty : Val
  error : Option FieldError
  deriving DecidableEq, Repr

/-- State of a freshly constructed `Field` with no `default` kwarg:
`Field.__init__` (lines 239-241) leaves `_dirty = None`, `_value = None`,
`_error = None`. -/
def fieldNew : FState := ⟨Val.none, Val.none, Option.none⟩

/-- `self._max != None and val > self._max` → `MaxException` carrying the
limit (`field.py` lines 43, 57). -/
def boundCheckMax (mx : Option Int) (x : Int) : Except FieldError Unit :=
  match mx with
  | some M => if M < x then .error (.max M) else .ok ()
  | _ => .ok ()

/-- `self._min != None and val < self._min` → `MinException` carrying the
limit (`field.py` lines 44, 58). -/
def boundCheckMin (mn : Option Int) (x : Int) : Except FieldError Unit :=
  match mn with
  | some m => if x < m then .error (.min m) else .ok ()
  | _ => .ok ()

/-- `Char.clean` (`field.py` lines 40-47): coerce to a string with
`unicode(val)` (total on the modelled values), then check the max length
bound, then the min length bound, in that order. -/
def charClean (mn mx : Option Int) (v : Val) : Except FieldError Val :=
  let s := v.toPyStr
  match boundCheckMax mx s.length with
  | .error e => .error e
  | .ok _ =>
    match boundCheckMin mn s.length with
    | .error e => .error e
    | .ok _ => .ok (.str s)

/-- `Integer.clean` (`field.py` lines 53-61): only a truthy value is
coerced with `int(val)` and bound-checked (max first, then min); a falsy
value — including `0` — is returned unchanged with no checks. A failed
coercion raises the catch-all `FieldException`. -/
def integerClean (mn mx : Option Int) (v : Val) : Except FieldError Val :=
  if v.truthy then
    match v.toPyInt with
    | Option.none => .error (.invalid "integer")
    | some n =>
      match boundCheckMax mx n with
      | .error e => .error e
      | .ok _ =>
        match boundCheckMin mn n with
        | .error e => .error e
        | .ok _ => .ok (.int n)
  else .ok v

/-- Dispatch of the overridable `clean` hook by field kind. -/
def kindClean : FieldKind → Val → Except FieldError Val
  | .base, v => .ok v
  | .char mn mx, v => charClean mn mx v
  | .integer mn mx, v => integerClean mn mx v

/-- `Field._isrequired` (`__init__.py` lines 262-263):
`if val in EMPTY and self._required: raise FieldException("Required Field")`. -/
def fieldIsRequired (required : Bool) (v : Val) : Except FieldError Unit :=
  if v.pyIn EMPTY && required then .error .required else .ok ()

/-- `Field._clean` (`__init__.py` lines 243-249). Clears `_error`, runs
the required check, runs `clean`, then sets
`self._dirty = self._value if not dirty else dirty` (the baseline becomes
the explicit `dirty` argument when that argument is truthy, otherwise the
previous current value) and finally `self._value = val`. On an exception
the state is unchanged apart from the cleared `_error` (the callers then
record the exception, see `fieldMap` and `baseSetattr`). The custom
`_validate` hook is `None` for every field in the claims and is not
modelled. -/
def fieldClean (cfg : FieldCfg) (s : FState) (val : Val) (dirty : Val) :
    Except FieldError FState :=
  match fieldIsRequired cfg.required val with
  | .error e => .error e
  | .ok _ =>
    match kindClean cfg.kind val with
    | .error e => .error e
    | .ok v =>
      .ok { value := v
            dirty := if dirty.truthy then dirty else s.value
            error := Option.none }

/-- `Field._map` (`__init__.py` lines 282-287): with `init` the call is
`self._clean(val, dirty=val)`, otherwise `self._clean(val)` (so `dirty`
defaults to `None`); any exception is caught and stored in `_error`. -/
def fieldMap (cfg : FieldCfg) (s : FState) (v : Val) (init : Bool) : FState :=
  match fieldClean cfg s v (if init then v else Val.none) with
  | .ok s2 => s2
  | .error e => { s with error := some e }

/-- `base.__setattr__` for a declared field (`__init__.py` lines 485-492):
`fi._clean(val)` is attempted; a `FieldException` is caught and recorded in
`fi._error`, leaving `_value` and `_dirty` untouched. (The second handler,
which turns an assignment to an undeclared name into a plain dictionary
write, is outside the claims and not modelled.) -/
def baseSetattr (cfg : FieldCfg) (s : FState) (v : Val) : FState :=
  match fieldClean cfg s v Val.none with
  | .ok s2 => s2
  | .error e => { s with error := some e }

/-- What the caller of `base.__setattr__` observes: because the
`FieldException` is caught inside `__setattr__`, the caller always gets a
normal return — the error channel is never used for a cleaning failure. -/
def baseSetattrResult (cfg : FieldCfg) (s : FState) (v : Val) :
    Except FieldError FState :=
  .ok (baseSetattr cfg s v)

/-- `Field._save` (`__init__.py` lines 268-271): the per-field delta — the
singleton `{namespace: _value}` when `_value != _dirty` (Python `!=`),
otherwise empty. -/
def fieldSave (ns : String) (s : FState) : List (String × Val) :=
  if s.value.pyEq s.dirty then [] else [(ns, s.value)]

/-- `Field._get_value` (`__init__.py` lines 291-292), the value a reader
obtains through `base.__getattribute__`. -/
def fieldGetValue (s : FState) : Val := s.value

/-- `Field._errors` (`__init__.py` lines 273-280): re-runs the required
check on the current value, recording a failure in `_error` (a preexisting
`_error` is kept otherwise), and reports `{namespace: _error}` when
`_error` is set. Returns the updated field state and the report. -/
def fieldErrors (cfg : FieldCfg) (ns : String) (s : FState) :
    FState × List (String × FieldError) :=
  match fieldIsRequired cfg.required s.value with
  | .error e => ({ s with error := some e }, [(ns, e)])
  | .ok _ =>
    match s.error with
    | some e => (s, [(ns, e)])
    | _ => (s, [])

/-! ## Document-level save and validation

`base._save` / `base._errors` (`__init__.py` lines 518-536) walk the
declared children and merge the per-child reports; `Document.save`
(lines 709-739) gates every write on the merged error report. The claims
under study use documents whose children are leaf fields, so the walk is
modelled over a list of named leaf fields (for a nested composite the
namespace would extend the dotted path; the walk itself is unchanged). -/

/-- One declared child of a document: attribute name (also its db key —
no `_dbkey` alias is used in the claims), configuration, and field state. -/
structure DocField where
  name : String
  cfg : FieldCfg
  st : FState
  deriving DecidableEq, Repr

/-- A `Document`: its declared fields and its `_id` attribute (`None`
until an id is adopted — `Document.save` line 723 tests it by truthiness). -/
structure Doc where
  fields : List DocField
  id : Val
  deriving DecidableEq, Repr

/-- The field walk of `base._errors` (lines 528-536): each child's
`_errors` report is merged, and the child state mutations (recorded
required-check failures) are kept. -/
def dfErrors : List DocField → List DocField × List (String × FieldError)
  | [] => ([], [])
  | f :: fs =>
    ({ f with st := (fieldErrors f.cfg f.name f.st).1 } :: (dfErrors fs).1,
     (fieldErrors f.cfg f.name f.st).2 ++ (dfErrors fs).2)

/-- `base._errors` on a document: updated document plus the aggregated
dotted-path → error report. -/
def docErrors (d : Doc) : Doc × List (String × FieldError) :=
  ({ d with fields := (dfErrors d.fields).1 }, (dfErrors d.fields).2)

/-- The field walk of `base._save` (lines 518-526): merge of the
per-field deltas. -/
def dfDelta : List DocField → List (String × Val)
  | [] => []
  | f :: fs => fieldSave f.name f.st ++ dfDelta fs

/-- `base._save` on a document: the dotted-path → value delta. -/
def docDelta (d : Doc) : List (String × Val) := dfDelta d.fields

/-- `base._json` restricted to leaf fields (lines 547-556):
`{key: _value}` for every field. -/
def docJson (d : Doc) : List (String × Val) :=
  d.fields.map (fun f => (f.name, f.st.value))

/-- Outcome of `Document.save` (lines 709-739). A write against the store
happens only through the `inserted` / `updated` constructors; `failed`
models `raise DocumentException(errors)` before any write. -/
inductive SaveResult where
  | failed (errors : List (String × FieldError)) : SaveResult
  | inserted (payload : List (String × Val)) : SaveResult
  | updated (delta : List (String × Val)) : SaveResult
  deriving DecidableEq, Repr

/-- `Document.save` (`__init__.py` lines 709-739). First `self._errors()`
runs; a non-empty report raises `DocumentException` carrying it and no
write happens. Otherwise, with no (truthy) `_id` the full json plus the
`__created__`/`__modified__`/`__active__` stamps is inserted and the
store-generated id (`newId`) is adopted; with an `_id` the delta plus a
fresh `__modified__` stamp is sent as a `$set` update. Timestamps are
modelled by the integer `now`. Note that nothing in `save` or in
`Field._save` writes `_dirty`: the fields keep their states. (The insert
branch also calls `self._save()` and discards the result — a no-op for
the base fields modelled here.) -/
def docSave (d : Doc) (now : Int) (newId : Val) : Doc × SaveResult :=
  if (docErrors d).2.isEmpty then
    if (docErrors d).1.id.truthy then
      ((docErrors d).1,
       .updated (docDelta (docErrors d).1 ++ [("__modified__", Val.int now)]))
    else
      ({ (docErrors d).1 with id := newId },
       .inserted (docJson (docErrors d).1 ++
         [("__created__", Val.int now), ("__modified__", Val.int now),
          ("__active__", Val.bool true)]))
  else ((docErrors d).1, .failed (docErrors d).2)

/-! ## Incremental assembly (`Document.__setitem__`)

`__init__.py` lines 611-622: the driver feeds key/value pairs one at a
time; non-`_id` pairs are buffered in `__hargs__`/`__hargskeys__`, and a
full mapping pass `self._map(self.__hargs__, init=True)` runs whenever,
right after buffering a non-`_id` pair, the declared key set is a subset
of the observed keys AND `self._id` is truthy. An `_id` pair only stores
the id. The number of mapping passes triggered is recorded in
`mapCount`. -/

/-- Dictionary write `self.__hargs__[key] = val` (assoc-list upsert). -/
def hupsert : List (String × Val) → String → Val → List (String × Val)
  | [], k, v => [(k, v)]
  | kv :: rest, k, v =>
    if kv.1 = k then (k, v) :: rest else kv :: hupsert rest k v

/-- Set insertion `self.__hargskeys__.add(key)`. -/
def hinsert (xs : List String) (k : String) : List String :=
  if xs.contains k then xs else xs ++ [k]

/-- `self.__keys__.issubset(self.__hargskeys__)`. -/
def keySubset (keys obs : List String) : Bool :=
  keys.all (fun k => obs.contains k)

/-- Assembly state of a `Document` being populated by the driver:
declared schema keys `__keys__`, buffers `__hargs__` / `__hargskeys__`,
the `_id` attribute, and the number of full mapping passes run so far. -/
structure AsmState where
  keys : List String
  hargs : List (String × Val)
  hargskeys : List String
  id : Val
  mapCount : Nat
  deriving DecidableEq, Repr

/-- `Document.__setitem__` (`__init__.py` lines 611-622). -/
def docSetitem (st : AsmState) (k : String) (v : Val) : AsmState :=
  if k ≠ "_id" then
    let st1 : AsmState :=
      { st with hargs := hupsert st.hargs k v, hargskeys := hinsert st.hargskeys k }
    if keySubset st1.keys st1.hargskeys && st1.id.truthy then
      { st1 with mapCount := st1.mapCount + 1 }
    else st1
  else { st with id := v }

/-- A freshly constructed `Document` awaiting driver pairs:
`Document.__init__` (lines 596-606) leaves `_id = None` and empty
buffers. -/
def asmInit (keys : List String) : AsmState :=
  ⟨keys, [], [], Val.none, 0⟩

/-- Feed a sequence of driver key/value pairs, one `__setitem__` each. -/
def runPairs (st : AsmState) (evs : List (String × Val)) : AsmState :=
  evs.foldl (fun s kv => docSetitem s kv.1 kv.2) st

/-! ## The `List` container (`__init__.py` lines 361-428)

Elements of a live container are either typed child objects (constructed
from the declared `_type` and mapped from a raw value) or raw values
appended by the permissive fallback. `_type` set to a list of types is
not exercised by the claims and is modelled as a single class name. -/

/-- An element held by a `List` container. -/
inductive Elem where
  | typed (cls : String) (data : Val) : Elem
  | raw (v : Val) : Elem
  deriving DecidableEq, Repr

/-- `obj.__class__` of a container element. -/
def Elem.cls : Elem → String
  | .typed c _ => c
  | .raw v => v.pyCls

/-- Configuration of a `List` container: the declared element class name,
the optional `_length` bound, and whether `self._type()` construction
followed by `obj._map(item, ...)` succeeds in the current environment.
(That step fails e.g. when `_type` is a `Document` subclass and no
database connection is configured — `Document.__init__` line 603
dereferences the connection — or when `_type` has no `_map` at all;
`base._map` and `Field._map` themselves never raise.) -/
structure LCfg where
  etype : String
  length : Option Nat
  constructMapOk : Bool
  deriving DecidableEq, Repr

/-- `List.append` (`__init__.py` lines 392-397): first the `_length`
check (by truthiness, so a zero bound is no bound), then the
element-class membership check; on failure the container is unchanged
and the exception propagates. -/
def listAppend (cfg : LCfg) (xs : List Elem) (e : Elem) :
    Except String (List Elem) :=
  if (match cfg.length with
      | some n => decide (n ≠ 0) && decide (n ≤ xs.length)
      | _ => false) then
    .error "max length exceeded"
  else if e.cls = cfg.etype then .ok (xs ++ [e])
  else .error "not of type"

/-- One iteration of `List._map` (lines 421-428): try to construct a
typed child, map the raw value into it and append it; if any of that
raises, fall back to appending the raw value unchanged — and that
fallback `append` is NOT wrapped, so its own failure propagates out of
`_map`. -/
def listMapStep (cfg : LCfg) (xs : List Elem) (v : Val) :
    Except String (List Elem) :=
  let tried : Except String (List Elem) :=
    if cfg.constructMapOk then listAppend cfg xs (Elem.typed cfg.etype v)
    else .error "construction failed"
  match tried with
  | .ok xs2 => .ok xs2
  | .error _ => listAppend cfg xs (Elem.raw v)

/-- `List._map` over the raw element list: elements are processed in
order; an exception escaping an iteration aborts the loop, returning the
elements appended so far together with the escaped error (the remaining
raw elements are never processed). -/
def listMapRun (cfg : LCfg) (xs : List Elem) :
    List Val → List Elem × Option String
  | [] => (xs, Option.none)
  | v :: vs =>
    match listMapStep cfg xs v with
    | .ok xs2 => listMapRun cfg xs2 vs
    | .error e => (xs, some e)

/-! ## Concrete fixtures used by the claims -/

/-- An `Integer` field with no bounds, not required. -/
def cfgI : FieldCfg := ⟨.integer Option.none Option.none, false⟩

/-- A required `Char` field with no length bounds. -/
def cfgChReq : FieldCfg := ⟨.char Option.none Option.none, true⟩

/-- A required base `Field`. -/
def cfgBReq : FieldCfg := ⟨.base, true⟩

/-- Field state reached from a fresh field by the initial load of `1`
followed by the assignment of `2`: current value `2`, baseline `1`. -/
def stV21 : FState := ⟨Val.int 2, Val.int 1, Option.none⟩

/-- A one-field document with a pending change (current `2`, baseline
`1`) and a (truthy) id. -/
def docDirty : Doc := ⟨[⟨"f", ⟨.base, false⟩, stV21⟩], Val.int 9⟩

/-- A one-field document whose required `Char` field was never set. -/
def docInvalid : Doc := ⟨[⟨"f", cfgChReq, fieldNew⟩], Val.none⟩

/-! ## The claims under study, stated as written -/

/-- Claim C1 as stated: an ordinary (non-initial-load) assignment that
passes cleaning never changes the baseline value. -/
def claimC1 : Prop :=
  ∀ (cfg : FieldCfg) (s : FState) (v : Val) (s2 : FState),
    fieldClean cfg s v Val.none = Except.ok s2 → s2.dirty.pyEq s.dirty = true

/-- Claim C2 as stated: (i) `diff` reports the current value exactly when
it differs from the baseline; (ii) immediately after a
baseline-establishing initial load (a `_clean` with `dirty = val` that
succeeds), `diff` is empty; (iii) after any subsequent assignment of a
value different from the baseline, `diff` reports that value. -/
def claimC2 : Prop :=
  (∀ (ns : String) (s : FState),
      fieldSave ns s = if s.value.pyEq s.dirty then [] else [(ns, s.value)]) ∧
  (∀ (ns : String) (cfg : FieldCfg) (s : FState) (v : Val) (s2 : FState),
      fieldClean cfg s v v = Except.ok s2 → fieldSave ns s2 = []) ∧
  (∀ (ns : String) (cfg : FieldCfg) (s : FState) (v : Val) (s2 : FState),
      fieldClean cfg s v Val.none = Except.ok s2 →
      s2.value.pyEq s.dirty = false → fieldSave ns s2 = [(ns, s2.value)])

/-- Claim C3 as stated: after a successful `save()` every field is
re-baselined, so a second `save()` with no intervening mutation computes
an empty field delta. -/
def claimC3 : Prop :=
  ∀ (d : Doc) (now : Int) (nid : Val),
    (∀ es, (docSave d now nid).2 ≠ SaveResult.failed es) →
    docDelta (docSave d now nid).1 = []

/-- Claim C4 as stated (consequence form): whenever, after feeding any
sequence of driver pairs to a fresh Entity, the observed keys cover the
declared schema keys and an id is present, the full mapping pass has run
exactly once. -/
def claimC4 : Prop :=
  ∀ (keys : List String) (evs : List (String × Val)),
    keySubset keys (runPairs (asmInit keys) evs).hargskeys = true →
    (runPairs (asmInit keys) evs).id.truthy = true →
    (runPairs (asmInit keys) evs).mapCount = 1

/-- Claim C6 as stated: a direct assignment whose cleaning fails surfaces
the field-level error to the caller at the point of assignment (the
caller-visible result of `__setattr__` is a failure). -/
def claimC6 : Prop :=
  ∀ (cfg : FieldCfg) (s : FState) (v : Val) (e : FieldError),
    fieldClean cfg s v Val.none = Except.error e →
    ∃ e2, baseSetattrResult cfg s v = Except.error e2

/-- Claim C7 as stated: the bulk mapping pass of a container never fails
outright — it always processes the whole raw element list, falling back
to appending a raw value where typed construction fails. -/
def claimC7 : Prop :=
  ∀ (cfg : LCfg) (xs : List Elem) (vals : List Val),
    (listMapRun cfg xs vals).2 = Option.none

/-- Claim C8 as stated (for Integer fields): every assignment of a value
violating the min or the max bound fails. -/
def claimC8 : Prop :=
  ∀ (mn mx : Option Int) (n : Int) (s : FState),
    ((∃ m, mn = some m ∧ n < m) ∨ (∃ M, mx = some M ∧ M < n)) →
    ∃ e, fieldClean ⟨.integer mn mx, false⟩ s (Val.int n) Val.none =
      Except.error e

/-! ## Shared lemmas -/

/-- Destructing a successful `Field._clean`: the stored value is the
cleaned value, the baseline becomes the `dirty` argument when truthy and
the previous current value otherwise, and the error slot is cleared. -/
theorem fieldClean_ok_parts (cfg : FieldCfg) (s : FState) (val dirty : Val)
    (s2 : FState) (h : fieldClean cfg s val dirty = Except.ok s2) :
    kindClean cfg.kind val = Except.ok s2.value ∧
    s2.dirty = (if dirty.truthy then dirty else s.value) ∧
    s2.error = Option.none := by
  unfold fieldClean at h
  cases hr : fieldIsRequired cfg.required val <;> rw [hr] at h
  · exact Except.noConfusion h
  · cases hk : kindClean cfg.kind val <;> rw [hk] at h
    · exact Except.noConfusion h
    · injection h with h2
      subst h2
      exact ⟨rfl, rfl, rfl⟩

/-- A field whose `_errors` report is empty is returned unchanged by
`Field._errors`. -/
theorem fieldErrors_nil (cfg : FieldCfg) (ns : String) (s : FState)
    (h : (fieldErrors cfg ns s).2 = []) : fieldErrors cfg ns s = (s, []) := by
  unfold fieldErrors at h ⊢
  cases hr : fieldIsRequired cfg.required s.value with
  | error e => rw [hr] at h; simp at h
  | ok u =>
    rw [hr] at h
    cases he : s.error with
    | none => rfl
    | some e => rw [he] at h; simp at h

/-- A field walk whose merged error report is empty leaves every field
unchanged. -/
theorem dfErrors_nil (fs : List DocField) (h : (dfErrors fs).2 = []) :
    dfErrors fs = (fs, []) := by
  induction fs with
  | nil => rfl
  | cons f fs ih =>
    unfold dfErrors at h ⊢
    rcases List.append_eq_nil.mp h with ⟨h1, h2⟩
    rw [fieldErrors_nil f.cfg f.name f.st h1, ih h2]
    rfl

/-- Membership of an integer value in `EMPTY` is always false. -/
theorem int_pyIn_EMPTY (n : Int) : (Val.int n).pyIn EMPTY = false := by
  simp [Val.pyIn, EMPTY, Val.pyEq, Val.pyNum]

/-- `Val.pyIn EMPTY` holds exactly for the four members of `EMPTY`. -/
theorem pyIn_EMPTY_iff (v : Val) :
    v.pyIn EMPTY = true ↔
      (v = Val.str "" ∨ v = Val.str " " ∨ v = Val.none ∨ v = Val.str "None") := by
  cases v <;> simp [Val.pyIn, EMPTY, Val.pyEq, Val.pyNum]

/-! ## Claim C1 -/

/-- C1 counterexample: starting from a fresh `Integer` field, initial-load
`1` (baseline and current become `1`), assign `2` (passes cleaning;
baseline still `1`), then assign `3` (passes cleaning): the baseline moves
from `1` to `2` even though no re-baseline (initial load or save)
happened — refuting the claim that an ordinary assignment that passes
cleaning never changes the baseline value. -/
theorem c1_counterexample :
    fieldMap cfgI fieldNew (Val.int 1) true = ⟨Val.int 1, Val.int 1, Option.none⟩ ∧
    baseSetattr cfgI ⟨Val.int 1, Val.int 1, Option.none⟩ (Val.int 2) = stV21 ∧
    fieldClean cfgI stV21 (Val.int 3) Val.none =
      Except.ok ⟨Val.int 3, Val.int 2, Option.none⟩ ∧
    ¬ claimC1 := by
  refine ⟨rfl, rfl, rfl, fun h => ?_⟩
  have h2 := h cfgI stV21 (Val.int 3) ⟨Val.int 3, Val.int 2, Option.none⟩ rfl
  exact absurd h2 (by decide)

/-- C1 amended: an ordinary (non-initial-load) assignment that passes
cleaning sets the baseline to the previous current value (and clears the
error slot); consequently, whenever the field was dirty before the
assignment, the assignment does change the baseline. -/
theorem c1_amended (cfg : FieldCfg) (s : FState) (v : Val) (s2 : FState)
    (h : fieldClean cfg s v Val.none = Except.ok s2) :
    s2.dirty = s.value ∧ s2.error = Option.none ∧
    (s.value.pyEq s.dirty = false → s2.dirty.pyEq s.dirty = false) := by
  obtain ⟨-, hd, he⟩ := fieldClean_ok_parts cfg s v Val.none s2 h
  simp only [Val.truthy, Bool.false_eq_true, if_false] at hd
  exact ⟨hd, he, fun hne => by rw [hd]; exact hne⟩

/-- C1 witness: the amended statement applied to the assignment of `3`
to a field with current value `2` and baseline `1`. -/
theorem c1_witness :
    fieldClean cfgI stV21 (Val.int 3) Val.none =
      Except.ok ⟨Val.int 3, Val.int 2, Option.none⟩ ∧
    (⟨Val.int 3, Val.int 2, Option.none⟩ : FState).dirty = stV21.value := by
  exact ⟨rfl, (c1_amended cfgI stV21 (Val.int 3) ⟨Val.int 3, Val.int 2, Option.none⟩ rfl).1⟩

/-! ## Claim C2 -/

/-- C2 counterexample: with current value `2` and baseline `1` (the state
after initial-loading `1` and assigning `2`), a further assignment of `2`
passes cleaning and `2` differs from the baseline `1`, yet `diff` comes
back empty — because the assignment silently moved the baseline to the
previous current value `2` — refuting part (iii) of the claim. -/
theorem c2_counterexample :
    fieldClean cfgI stV21 (Val.int 2) Val.none =
      Except.ok ⟨Val.int 2, Val.int 2, Option.none⟩ ∧
    (Val.int 2).pyEq stV21.dirty = false ∧
    fieldSave "p" ⟨Val.int 2, Val.int 2, Option.none⟩ = [] ∧
    ¬ claimC2 := by
  refine ⟨rfl, by decide, rfl, fun h => ?_⟩
  have h3 := h.2.2 "p" cfgI stV21 (Val.int 2)
    ⟨Val.int 2, Val.int 2, Option.none⟩ rfl (by decide)
  exact absurd h3 (by decide)

/-- C2 amended: (i) `diff` reports the current value exactly when it
differs (Python `!=`) from the baseline; (ii) after an initial load of a
truthy value that cleaning maps to an equal value, `diff` is empty;
(iii) after an assignment that passes cleaning of a value different from
the previous CURRENT value (not the baseline), `diff` reports the newly
stored value. -/
theorem c2_amended :
    (∀ (ns : String) (s : FState),
        fieldSave ns s = if s.value.pyEq s.dirty then [] else [(ns, s.value)]) ∧
    (∀ (ns : String) (cfg : FieldCfg) (s : FState) (v : Val) (s2 : FState),
        v.truthy = true → fieldClean cfg s v v = Except.ok s2 →
        s2.value.pyEq v = true → fieldSave ns s2 = []) ∧
    (∀ (ns : String) (cfg : FieldCfg) (s : FState) (v : Val) (s2 : FState),
        fieldClean cfg s v Val.none = Except.ok s2 →
        s2.value.pyEq s.value = false → fieldSave ns s2 = [(ns, s2.value)]) := by
  refine ⟨fun ns s => rfl, ?_, ?_⟩
  · intro ns cfg s v s2 ht h hv
    obtain ⟨-, hd, -⟩ := fieldClean_ok_parts cfg s v v s2 h
    rw [ht, if_pos rfl] at hd
    unfold fieldSave
    rw [hd, hv, if_pos rfl]
  · intro ns cfg s v s2 h hv
    obtain ⟨-, hd, -⟩ := fieldClean_ok_parts cfg s v Val.none s2 h
    simp only [Val.truthy, Bool.false_eq_true, if_false] at hd
    unfold fieldSave
    rw [hd, hv]
    rfl

/-- C2 witness: part (ii) at the initial load of `1` into a fresh field
(diff empty), and part (iii) at the assignment of `2` to a field whose
current value is `1` (diff reports `2`). -/
theorem c2_witness :
    fieldSave "p" ⟨Val.int 1, Val.int 1, Option.none⟩ = [] ∧
    fieldSave "p" stV21 = [("p", Val.int 2)] := by
  constructor
  · exact c2_amended.2.1 "p" cfgI fieldNew (Val.int 1)
      ⟨Val.int 1, Val.int 1, Option.none⟩ (by decide) rfl (by decide)
  · exact c2_amended.2.2 "p" cfgI ⟨Val.int 1, Val.int 1, Option.none⟩
      (Val.int 2) stV21 rfl (by decide)

/-! ## Claim C3 -/

/-- C3 counterexample: a document whose single field has current value
`2` and baseline `1` saves successfully (update delta `{f: 2}`), but no
field is re-baselined, so a second `save()` with no intervening mutation
computes the very same non-empty field delta and issues the same update —
refuting both the re-baseline and the empty-second-delta parts of the
claim. -/
theorem c3_counterexample :
    (docSave docDirty 5 (Val.int 1)).2 =
      SaveResult.updated [("f", Val.int 2), ("__modified__", Val.int 5)] ∧
    (docSave (docSave docDirty 5 (Val.int 1)).1 6 (Val.int 1)).2 =
      SaveResult.updated [("f", Val.int 2), ("__modified__", Val.int 6)] ∧
    ¬ claimC3 := by
  refine ⟨rfl, rfl, fun h => ?_⟩
  have hne : ∀ es, (docSave docDirty 5 (Val.int 1)).2 ≠ SaveResult.failed es := by
    intro es hes
    exact SaveResult.noConfusion
      (show SaveResult.updated [("f", Val.int 2), ("__modified__", Val.int 5)] =
        SaveResult.failed es from hes)
  have h2 := h docDirty 5 (Val.int 1) hne
  exact absurd h2 (by decide)

/-- C3 amended: a successful `save()` never re-baselines — it leaves
every field state untouched — so a second `save()` with no intervening
mutation recomputes exactly the same field delta and issues an update
carrying it again (together with a fresh `__modified__` stamp). The
hypothesis `hid` records that a store-generated id is truthy (a real
ObjectId). -/
theorem c3_amended (d : Doc) (now now2 : Int) (nid nid2 : Val) (d2 : Doc)
    (r : SaveResult) (hid : nid.truthy = true)
    (h : docSave d now nid = (d2, r))
    (hr : ∀ es, r ≠ SaveResult.failed es) :
    d2.fields = d.fields ∧ docDelta d2 = docDelta d ∧
    (docSave d2 now2 nid2).2 =
      SaveResult.updated (docDelta d ++ [("__modified__", Val.int now2)]) := by
  have hE : (docErrors d).2.isEmpty = true := by
    by_contra hE
    rw [docSave, if_neg hE] at h
    injection h with h1 h2
    exact hr _ h2.symm
  have hnil : (dfErrors d.fields).2 = [] := by
    have := List.isEmpty_iff.mp hE
    exact this
  have hDE : docErrors d = (d, []) := by
    unfold docErrors
    rw [dfErrors_nil d.fields hnil]
  rw [docSave, hDE] at h
  simp only [List.isEmpty_nil, if_true] at h
  by_cases hid0 : d.id.truthy = true
  · rw [if_pos hid0] at h
    injection h with h1 h2
    subst h1
    refine ⟨rfl, rfl, ?_⟩
    rw [docSave, hDE]
    simp only [List.isEmpty_nil, if_true]
    rw [if_pos hid0]
  · rw [if_neg hid0] at h
    injection h with h1 h2
    subst h1
    refine ⟨rfl, rfl, ?_⟩
    have hDE2 : docErrors { d with id := nid } = ({ d with id := nid }, []) := by
      unfold docErrors
      rw [show ({ d with id := nid } : Doc).fields = d.fields from rfl,
        dfErrors_nil d.fields hnil]
    rw [docSave, hDE2]
    simp only [List.isEmpty_nil, if_true]
    rw [if_pos (show ({ d with id := nid } : Doc).id.truthy = true from hid)]
    rfl

/-- C3 witness: the amended statement applied to the dirty one-field
document: the first save succeeds, leaves the fields untouched, and the
second save recomputes the same field delta. -/
theorem c3_witness :
    (docSave docDirty 6 (Val.int 1)).2 =
      SaveResult.updated (docDelta docDirty ++ [("__modified__", Val.int 6)]) ∧
    docDelta docDirty = [("f", Val.int 2)] := by
  refine ⟨?_, rfl⟩
  exact (c3_amended docDirty 5 6 (Val.int 1) (Val.int 1) docDirty
    (SaveResult.updated [("f", Val.int 2), ("__modified__", Val.int 5)])
    (by decide) rfl
    (fun es hes => SaveResult.noConfusion hes)).2.2

/-! ## Claim C4 -/

/-- C4 counterexample: declared keys `{"a"}`, driver pairs arriving as
`("a", 1)` then `("_id", 7)`. After both pairs the observed keys cover
the schema AND an id is present, yet no mapping pass has ever run
(`mapCount = 0`), because `__setitem__` only triggers the pass while
handling a non-`_id` pair — refuting "transitions to Loaded exactly once,
the instant the observed keys cover the schema and an id is present". -/
theorem c4_counterexample :
    runPairs (asmInit ["a"]) [("a", Val.int 1), ("_id", Val.int 7)] =
      ⟨["a"], [("a", Val.int 1)], ["a"], Val.int 7, 0⟩ ∧
    ¬ claimC4 := by
  refine ⟨rfl, fun h => ?_⟩
  have h2 := h ["a"] [("a", Val.int 1), ("_id", Val.int 7)] (by decide) (by decide)
  exact absurd h2 (by decide)

/-- C4 amended: a mapping pass runs exactly on those non-`_id` pairs
whose buffering makes the observed keys cover the declared keys while an
id is ALREADY present; an `_id` pair never triggers a pass. In
particular, with the id arriving first and declared keys `{"a","b"}`
arriving as `b` then `a`, the Entity maps only after the second declared
pair. -/
theorem c4_amended :
    (∀ (st : AsmState) (k : String) (v : Val), k ≠ "_id" →
        (docSetitem st k v).mapCount =
          (if keySubset st.keys (hinsert st.hargskeys k) && st.id.truthy
           then st.mapCount + 1 else st.mapCount)) ∧
    (∀ (st : AsmState) (v : Val),
        (docSetitem st "_id" v).mapCount = st.mapCount) ∧
    ((runPairs (asmInit ["a", "b"])
        [("_id", Val.int 7), ("b", Val.int 2)]).mapCount = 0 ∧
     (runPairs (asmInit ["a", "b"])
        [("_id", Val.int 7), ("b", Val.int 2), ("a", Val.int 1)]).mapCount = 1) := by
  refine ⟨?_, fun st v => rfl, by decide, by decide⟩
  intro st k v hk
  unfold docSetitem
  rw [if_pos hk]
  by_cases hc : (keySubset st.keys (hinsert st.hargskeys k) && st.id.truthy) = true
  · rw [if_pos hc, if_pos hc]
  · rw [if_neg hc, if_neg hc]

/-- C4 witness: the amended step characterization applied to the very
first declared pair fed to a fresh Entity (no id yet, so no pass runs). -/
theorem c4_witness :
    (docSetitem (asmInit ["a"]) "a" (Val.int 1)).mapCount = 0 := by
  have h := c4_amended.1 (asmInit ["a"]) "a" (Val.int 1) (by decide)
  rw [h]
  decide

/-! ## Claim C5 -/

/-- C5 confirmed: `Document.save` first collects the full error report;
when it is non-empty, it returns the failure carrying exactly that
report — every dotted-path → error pair — and performs no write (the
`failed` result is produced before and instead of either write
constructor). -/
theorem c5_save_gate (d : Doc) (now : Int) (nid : Val)
    (h : (docErrors d).2 ≠ []) :
    docSave d now nid = ((docErrors d).1, SaveResult.failed (docErrors d).2) := by
  rw [docSave, if_neg]
  intro hE
  exact h (List.isEmpty_iff.mp hE)

/-- C5 witness: a document whose required `Char` field is unset fails to
save with the aggregate report `{f: required}` and no write. -/
theorem c5_witness :
    (docErrors docInvalid).2 = [("f", FieldError.required)] ∧
    docSave docInvalid 5 (Val.int 1) =
      ((docErrors docInvalid).1, SaveResult.failed [("f", FieldError.required)]) := by
  exact ⟨rfl, c5_save_gate docInvalid 5 (Val.int 1) (by decide)⟩

/-! ## Claim C6 -/

/-- C6 counterexample: assigning `""` to a required `Char` field makes
cleaning fail with the required-field error, yet the caller of the
assignment observes a perfectly normal return — `__setattr__` catches the
`FieldException` and stores it on the field — refuting the claim that a
failing direct assignment surfaces the error to the caller at the point
of assignment. -/
theorem c6_counterexample :
    fieldClean cfgChReq fieldNew (Val.str "") Val.none =
      Except.error FieldError.required ∧
    baseSetattrResult cfgChReq fieldNew (Val.str "") =
      Except.ok { fieldNew with error := some FieldError.required } ∧
    ¬ claimC6 := by
  refine ⟨rfl, rfl, fun h => ?_⟩
  obtain ⟨e2, he⟩ := h cfgChReq fieldNew (Val.str "") FieldError.required rfl
  exact Except.noConfusion
    (show Except.ok (baseSetattr cfgChReq fieldNew (Val.str "")) =
      Except.error e2 from he)

/-- C6 amended: a direct assignment whose cleaning fails is NOT surfaced
to the caller; the caller observes a normal return, the error is recorded
on the field's own error slot, and the current value and baseline are
left unchanged — exactly the treatment mapping-pass failures get. -/
theorem c6_amended (cfg : FieldCfg) (s : FState) (v : Val) (e : FieldError)
    (h : fieldClean cfg s v Val.none = Except.error e) :
    baseSetattrResult cfg s v = Except.ok { s with error := some e } := by
  unfold baseSetattrResult baseSetattr
  rw [h]

/-- C6 witness: the amended statement applied to assigning `""` to a
required `Char` field. -/
theorem c6_witness :
    baseSetattrResult cfgChReq fieldNew (Val.str "") =
      Except.ok { fieldNew with error := some FieldError.required } :=
  c6_amended cfgChReq fieldNew (Val.str "") FieldError.required rfl

/-! ## Claim C7 -/

/-- C7 counterexample: a container declared for element type `"T"` in an
environment where typed construction fails (e.g. a `Document` element
type with no database connection configured), mapped over the raw list
`["x", 5]`: the fallback `append("x")` itself raises the element-type
check (`str` is not `"T"`), the exception escapes `List._map`, the raw
value is NOT appended, and the remaining element `5` is never processed —
refuting "a container never fails outright on a single malformed element
during load". -/
theorem c7_counterexample :
    listMapRun ⟨"T", Option.none, false⟩ [] [Val.str "x", Val.int 5] =
      ([], some "not of type") ∧
    ¬ claimC7 := by
  refine ⟨rfl, fun h => ?_⟩
  have h2 := h ⟨"T", Option.none, false⟩ [] [Val.str "x", Val.int 5]
  exact absurd h2 (by decide)

/-- C7 amended: when typed construction/mapping fails, `List._map` falls
back to `append(raw)`; if that append passes the container's own type and
length checks the raw value is appended unchanged and the remaining
elements are processed, but if the fallback append itself fails its
exception propagates out of `_map`, leaving the container as it was and
dropping all remaining elements. -/
theorem c7_amended (cfg : LCfg) (xs : List Elem) (v : Val) (vs : List Val)
    (hc : cfg.constructMapOk = false) :
    (listAppend cfg xs (Elem.raw v) = Except.ok (xs ++ [Elem.raw v]) →
      listMapRun cfg xs (v :: vs) = listMapRun cfg (xs ++ [Elem.raw v]) vs) ∧
    (∀ err, listAppend cfg xs (Elem.raw v) = Except.error err →
      listMapRun cfg xs (v :: vs) = (xs, some err)) := by
  have hstep : listMapStep cfg xs v = listAppend cfg xs (Elem.raw v) := by
    unfold listMapStep
    rw [hc]
    rfl
  have hrun : listMapRun cfg xs (v :: vs) =
      (match listMapStep cfg xs v with
       | Except.ok xs2 => listMapRun cfg xs2 vs
       | Except.error e => (xs, some e)) := rfl
  constructor
  · intro hap
    rw [hrun, hstep, hap]
  · intro err hap
    rw [hrun, hstep, hap]

/-- C7 witness: the amended statement applied to a container of element
type `"int"` with failing typed construction: the raw integer `5` passes
the fallback append, so mapping `[5, 7]` stores both raw values and
aborts nowhere. -/
theorem c7_witness :
    listMapRun ⟨"int", Option.none, false⟩ [] [Val.int 5, Val.int 7] =
      ([Elem.raw (Val.int 5), Elem.raw (Val.int 7)], Option.none) := by
  have h := (c7_amended ⟨"int", Option.none, false⟩ [] (Val.int 5)
    [Val.int 7] rfl).1 rfl
  rw [h]
  decide

/-! ## Claim C8 -/

/-- C8 counterexample: an `Integer` field with `min = 1, max = 10`
accepts the assignment of `0` — `Integer.clean` only coerces and
bound-checks a truthy value, and `0` is falsy — even though `0` violates
the min bound, refuting "every assignment of a value violating either
bound fails". -/
theorem c8_counterexample :
    fieldClean ⟨.integer (some 1) (some 10), false⟩ fieldNew (Val.int 0)
      Val.none = Except.ok ⟨Val.int 0, Val.none, Option.none⟩ ∧
    ¬ claimC8 := by
  refine ⟨rfl, fun h => ?_⟩
  obtain ⟨e, he⟩ := h (some 1) (some 10) 0 fieldNew (Or.inl ⟨1, rfl, by decide⟩)
  exact Except.noConfusion
    (show Except.ok (⟨Val.int 0, Val.none, Option.none⟩ : FState) =
      Except.error e from he)

/-- C8 amended: for a NONZERO integer value the bounds are enforced — a
value above the max fails with the max-bound error carrying the limit
(checked first), a value below the min fails with the min-bound error
carrying the limit, and an in-bounds value is stored and retrievable
unchanged; the value `0`, being falsy, bypasses coercion and both bound
checks entirely and is stored unchanged. -/
theorem c8_amended :
    (∀ (mn : Option Int) (M n : Int) (s : FState), n ≠ 0 → M < n →
        fieldClean ⟨.integer mn (some M), false⟩ s (Val.int n) Val.none =
          Except.error (FieldError.max M)) ∧
    (∀ (m n : Int) (mx : Option Int) (s : FState), n ≠ 0 → n < m →
        (∀ M, mx = some M → n ≤ M) →
        fieldClean ⟨.integer (some m) mx, false⟩ s (Val.int n) Val.none =
          Except.error (FieldError.min m)) ∧
    (∀ (mn mx : Option Int) (n : Int) (s : FState),
        (∀ m, mn = some m → m ≤ n) → (∀ M, mx = some M → n ≤ M) →
        fieldClean ⟨.integer mn mx, false⟩ s (Val.int n) Val.none =
          Except.ok ⟨Val.int n, s.value, Option.none⟩) ∧
    (∀ (mn mx : Option Int) (s : FState),
        fieldClean ⟨.integer mn mx, false⟩ s (Val.int 0) Val.none =
          Except.ok ⟨Val.int 0, s.value, Option.none⟩) := by
  refine ⟨?_, ?_, ?_, fun mn mx s => rfl⟩
  · intro mn M n s hn hM
    unfold fieldClean fieldIsRequired kindClean integerClean
    simp [int_pyIn_EMPTY, Val.truthy, hn, Val.toPyInt, boundCheckMax, hM]
  · intro m n mx s hn hm hmx
    unfold fieldClean fieldIsRequired kindClean integerClean
    have hMax : boundCheckMax mx n = Except.ok () := by
      cases mx with
      | none => rfl
      | some M =>
        simp only [boundCheckMax]
        rw [if_neg (not_lt.mpr (hmx M rfl))]
    simp [int_pyIn_EMPTY, Val.truthy, hn, Val.toPyInt, hMax, boundCheckMin, hm]
  · intro mn mx n s hmn hmx
    unfold fieldClean fieldIsRequired kindClean integerClean
    have hMax : boundCheckMax mx n = Except.ok () := by
      cases mx with
      | none => rfl
      | some M =>
        simp only [boundCheckMax]
        rw [if_neg (not_lt.mpr (hmx M rfl))]
    have hMin : boundCheckMin mn n = Except.ok () := by
      cases mn with
      | none => rfl
      | some m =>
        simp only [boundCheckMin]
        rw [if_neg (not_lt.mpr (hmn m rfl))]
    by_cases hn : n = 0
    · subst hn
      rfl
    · simp [int_pyIn_EMPTY, Val.truthy, hn, Val.toPyInt, hMax, hMin]

/-- C8 witness: the spec's own example — `min = 1, max = 10` rejects `11`
with the max-bound error carrying `10`, accepts `5`, retrievable as `5` —
plus the forced amendment: `0` is accepted despite `min = 1`. -/
theorem c8_witness :
    fieldClean ⟨.integer (some 1) (some 10), false⟩ fieldNew (Val.int 11)
      Val.none = Except.error (FieldError.max 10) ∧
    fieldClean ⟨.integer (some 1) (some 10), false⟩ fieldNew (Val.int 5)
      Val.none = Except.ok ⟨Val.int 5, Val.none, Option.none⟩ ∧
    fieldGetValue ⟨Val.int 5, Val.none, Option.none⟩ = Val.int 5 ∧
    fieldClean ⟨.integer (some 1) (some 10), false⟩ fieldNew (Val.int 0)
      Val.none = Except.ok ⟨Val.int 0, Val.none, Option.none⟩ := by
  refine ⟨c8_amended.1 (some 1) 10 11 fieldNew (by decide) (by decide), ?_, rfl, ?_⟩
  · exact c8_amended.2.2.1 (some 1) (some 10) 5 fieldNew
      (fun m hm => by injection hm with h; omega)
      (fun M hM => by injection hM with h; omega)
  · exact c8_amended.2.2.2 (some 1) (some 10) fieldNew

/-! ## Claim C9 -/

/-- C9 confirmed: on a required `Char` field (any length bounds),
assigning `""`, `" "`, or the absent value `None` fails with the
required-field error — the check runs before any coercion — and the
direct assignment leaves the field's current value (and baseline)
unchanged, only recording the error. -/
theorem c9_required_rejects (mn mx : Option Int) (s : FState) (v : Val)
    (hv : v = Val.str "" ∨ v = Val.str " " ∨ v = Val.none) :
    fieldClean ⟨.char mn mx, true⟩ s v Val.none =
      Except.error FieldError.required ∧
    baseSetattr ⟨.char mn mx, true⟩ s v = { s with error := some FieldError.required } := by
  have h1 : fieldClean ⟨.char mn mx, true⟩ s v Val.none =
      Except.error FieldError.required := by
    rcases hv with h | h | h <;> subst h <;> rfl
  refine ⟨h1, ?_⟩
  unfold baseSetattr
  rw [h1]

/-- C9 witness: the confirmed statement applied to assigning `" "` to a
required unbounded `Char` field in its fresh state. -/
theorem c9_witness :
    fieldClean cfgChReq fieldNew (Val.str " ") Val.none =
      Except.error FieldError.required ∧
    baseSetattr cfgChReq fieldNew (Val.str " ") =
      { fieldNew with error := some FieldError.required } :=
  c9_required_rejects Option.none Option.none fieldNew (Val.str " ")
    (Or.inr (Or.inl rfl))

/-! ## Claim C10 -/

/-- C10 confirmed: on a required base field, the required check rejects
exactly the four values `""`, `" "`, `None` and the literal string
`"None"`; in particular the string `"None"` is rejected as if absent,
while the two-space string `"  "` passes the required check and is
stored. -/
theorem c10_required_exact :
    (∀ (s : FState) (v : Val),
        fieldClean cfgBReq s v Val.none = Except.error FieldError.required ↔
          (v = Val.str "" ∨ v = Val.str " " ∨ v = Val.none ∨ v = Val.str "None")) ∧
    fieldClean cfgBReq fieldNew (Val.str "None") Val.none =
      Except.error FieldError.required ∧
    fieldClean cfgBReq fieldNew (Val.str "  ") Val.none =
      Except.ok ⟨Val.str "  ", Val.none, Option.none⟩ := by
  refine ⟨fun s v => ?_, rfl, rfl⟩
  rw [← pyIn_EMPTY_iff]
  unfold fieldClean fieldIsRequired cfgBReq
  cases hin : v.pyIn EMPTY with
  | true => simp
  | false => simp [kindClean]

end Humongolus
